import Mathlib

/-!
Verification of the job-application-tracker front end.

Shallow embedding of the client-side CRUD state and validation core:
the data model (`src/types/JobApplication.ts`), the API service layer
(`src/services/JobApplicationService.ts`), the table component
(filtering, pagination, inline status change, delete confirmation) and
the form component (validation, input handling).

Modelling conventions:
* JavaScript numbers that hold ids, enum codes and HTTP statuses are
  modelled as `Int` (they are integers everywhere in this code base).
* A `Date` value is a millisecond timestamp (`Int`).  `new Date("YYYY-MM-DD")`
  parses to midnight UTC of that civil date; `new Date()` is the current
  instant, decomposed below into its civil date and its time of day.
  The runtime's local time zone is assumed to be UTC, so `getFullYear`
  and `setFullYear` (local-time operations) act on the same civil fields.
* Promise-returning operations are modelled with `Except`: a thrown error
  is `.error`, a resolved value is `.ok`.  The remote server together with
  the transport is an oracle record of functions giving the outcome each
  HTTP call would have at the time it is issued.
-/

/-- Days since the Unix epoch (1970-01-01) of a proleptic-Gregorian civil
date, by the standard civil-from-days closed form.  The formula is linear
in `d`, so an out-of-range day such as Feb 29 of a non-leap year maps to
the following Mar 1 — exactly the rollover JavaScript's `MakeDay` performs
in `Date.prototype.setFullYear`. -/
def daysFromCivil (y m d : Int) : Int :=
  let y' := if m ≤ 2 then y - 1 else y
  let era := Int.fdiv y' 400
  let yoe := y' - era * 400
  let doy := Int.fdiv (153 * (if m > 2 then m - 3 else m + 9) + 2) 5 + d - 1
  let doe := yoe * 365 + Int.fdiv yoe 4 - Int.fdiv yoe 100 + doy
  era * 146097 + doe - 719468

/-- Milliseconds in one day. -/
def msPerDay : Int := 86400000

/-- A civil calendar date, as carried by the value of an
`<input type="date">` control (always either empty or a valid
`YYYY-MM-DD` string; the empty case is `Option.none` at the use site). -/
structure CivilDate where
  year : Int
  month : Int
  day : Int
deriving DecidableEq, Repr

/-- Millisecond timestamp of midnight UTC of a civil date: the value of
`new Date("YYYY-MM-DD").getTime()`. -/
def CivilDate.toMs (c : CivilDate) : Int :=
  daysFromCivil c.year c.month c.day * msPerDay

/-- The current instant (`new Date()`), decomposed into its UTC civil date
and the milliseconds elapsed since that day's midnight. -/
structure Now where
  date : CivilDate
  timeOfDay : Int
deriving Repr

/-- Millisecond timestamp of the current instant. -/
def Now.toMs (n : Now) : Int :=
  n.date.toMs + n.timeOfDay

/-- JobApplication record, mirroring the `JobApplication` interface of
`src/types/JobApplication.ts`.  `status` holds an `ApplicationStatus`
enum code (a plain number at runtime); the date fields hold ISO strings
and are never interpreted by the operations modelled here. -/
structure JobApplication where
  id : Int
  company : String
  position : String
  status : Int
  dateApplied : String
  createdAt : String
  updatedAt : String
deriving DecidableEq, Repr

/-- Update DTO, mirroring `UpdateJobApplicationDto`. -/
structure UpdateJobApplicationDto where
  company : String
  position : String
  status : Int
  dateApplied : String
deriving DecidableEq, Repr

/-- The six `ApplicationStatus` enum codes, in declaration order.  For a
TypeScript numeric enum, `Object.values(ApplicationStatus)` returns the
six member names followed by these six numbers, so a numeric membership
test against it succeeds exactly on these values. -/
def applicationStatusValues : List Int := [1, 2, 3, 4, 5, 6]

/-- Form state, mirroring `JobApplicationFormData`.  `dateApplied` is the
date input's value: `none` for the empty string, otherwise the civil date
the `YYYY-MM-DD` string denotes. -/
structure JobApplicationFormData where
  company : String
  position : String
  status : Int
  dateApplied : Option CivilDate
deriving DecidableEq, Repr

/-- Validation error map, mirroring `FormErrors`: each field is `none`
when the key is absent (or `undefined`), `some msg` when an error message
is present. -/
structure FormErrors where
  company : Option String := none
  position : Option String := none
  status : Option String := none
  dateApplied : Option String := none
  general : Option String := none
deriving DecidableEq, Repr

/-- JavaScript `String.prototype.trim`: the string with leading and
trailing whitespace removed.  Written over the character list so that it
evaluates by kernel reduction. -/
def jsTrim (s : String) : String :=
  ⟨((s.data.dropWhile Char.isWhitespace).reverse.dropWhile Char.isWhitespace).reverse⟩

/-- Client-side validation, mirroring `validateForm` of
`JobApplicationForm` (`src/unnamed/part_001`, lines 70-110).  `now` is the
instant at which the pass runs (`new Date()`); `oneYearAgo` is a copy of
that instant with the year field decremented (`setFullYear(year - 1)`),
so it keeps the current month, day and time of day. -/
def validateForm (fd : JobApplicationFormData) (now : Now) : FormErrors :=
  let companyErr : Option String :=
    if jsTrim fd.company = "" then some "Company name is required"
    else if (jsTrim fd.company).length > 200 then
      some "Company name must be 200 characters or less"
    else none
  let positionErr : Option String :=
    if jsTrim fd.position = "" then some "Position is required"
    else if (jsTrim fd.position).length > 200 then
      some "Position must be 200 characters or less"
    else none
  let statusErr : Option String :=
    if applicationStatusValues.contains fd.status then none
    else some "Please select a valid status"
  let dateErr : Option String :=
    match fd.dateApplied with
    | none => some "Date applied is required"
    | some selected =>
      let selectedMs := selected.toMs
      let todayMs := now.toMs
      let oneYearAgoMs :=
        daysFromCivil (now.date.year - 1) now.date.month now.date.day * msPerDay
          + now.timeOfDay
      if selectedMs > todayMs then some "Date applied cannot be in the future"
      else if selectedMs < oneYearAgoMs then
        some "Date applied cannot be more than one year ago"
      else none
  { company := companyErr, position := positionErr,
    status := statusErr, dateApplied := dateErr, general := none }

/-- The four input fields the form renders. -/
inductive FormField where
  | company
  | position
  | status
  | dateApplied
deriving DecidableEq, Repr

/-- Read the error entry for a given input field. -/
def FormErrors.get (e : FormErrors) : FormField → Option String
  | .company => e.company
  | .position => e.position
  | .status => e.status
  | .dateApplied => e.dateApplied

/-- A change event on one form input: the target's `name` together with
its new value, already converted to the field's type (text inputs carry
their string, the status select carries the `parseInt` of its value, the
date input carries its parsed value or `none` when cleared). -/
inductive FieldUpdate where
  | company (v : String)
  | position (v : String)
  | status (v : Int)
  | dateApplied (v : Option CivilDate)
deriving DecidableEq, Repr

/-- The field a change event targets. -/
def FieldUpdate.field : FieldUpdate → FormField
  | .company _ => .company
  | .position _ => .position
  | .status _ => .status
  | .dateApplied _ => .dateApplied

/-- Input handler, mirroring `handleInputChange` of `JobApplicationForm`
(`src/unnamed/part_001`, lines 113-130): writes the event's value into the
named field of the form data, and clears the named field's error entry if
one is present (spreads `errors` with `[name]: undefined`). -/
def handleInputChange (fd : JobApplicationFormData) (errors : FormErrors)
    (u : FieldUpdate) : JobApplicationFormData × FormErrors :=
  let fd' :=
    match u with
    | .company v => { fd with company := v }
    | .position v => { fd with position := v }
    | .status v => { fd with status := v }
    | .dateApplied v => { fd with dateApplied := v }
  let errors' :=
    if (errors.get u.field).isSome then
      match u.field with
      | .company => { errors with company := none }
      | .position => { errors with position := none }
      | .status => { errors with status := none }
      | .dateApplied => { errors with dateApplied := none }
    else errors
  (fd', errors')

/-- A failed axios call as seen by the response interceptor
(`src/src/services/JobApplicationService.ts`, lines 33-52): either the
server responded with a non-2xx status (carrying the status code and the
optional `message` field of the response body), or the request was sent
and no response arrived, or the request could not even be constructed
(carrying the underlying error's message). -/
inductive AxiosFailure where
  | response (status : Int) (bodyMessage : Option String)
  | request
  | setup (message : String)
deriving DecidableEq, Repr

/-- Error normalization performed by the response interceptor: each
failure is rethrown as a single `Error` whose message identifies the
kind.  In the response case the body message falls back to the generic
`"Server error"` when it is absent or empty (`data?.message || ...`,
where both `undefined` and `""` are falsy). -/
def normalizeError : AxiosFailure → String
  | .response status bodyMessage =>
    let msg :=
      match bodyMessage with
      | some m => if m = "" then "Server error" else m
      | none => "Server error"
    "HTTP " ++ toString status ++ ": " ++ msg
  | .request => "Network error: No response from server"
  | .setup m => "Request error: " ++ m

/-- One service-layer call: the single transport attempt either resolves,
or its failure is normalized by the interceptor and rethrown unchanged by
the service method's `catch` block (which only logs).  There is no retry:
the attempt's failure is the caller's failure. -/
def runServiceCall {α : Type} (attempt : Except AxiosFailure α) : Except String α :=
  match attempt with
  | .ok a => .ok a
  | .error f => .error (normalizeError f)

/-- Oracle for the remote API as reached through the service layer: for
each operation, the outcome (resolved value, or normalized error message)
the call would have at the moment it is issued. -/
structure Api where
  getById : Int → Except String JobApplication
  update : Int → UpdateJobApplicationDto → Except String JobApplication
  deleteById : Int → Except String Unit

/-- Status update, mirroring `JobApplicationService.updateStatus`
(`src/src/services/JobApplicationService.ts`, lines 138-159): fetch the
current record with `getById`, then issue a full `update` whose DTO copies
the fetched record's `company`, `position` and `dateApplied` and replaces
only `status`; any error of either call is rethrown unchanged. -/
def JobApplicationService.updateStatus (api : Api) (id : Int) (status : Int) :
    Except String JobApplication :=
  match api.getById id with
  | .error e => .error e
  | .ok currentApp =>
    api.update id
      { company := currentApp.company, position := currentApp.position,
        status := status, dateApplied := currentApp.dateApplied }

/-- State of `JobApplicationTable` relevant to the modelled handlers. -/
structure TableState where
  jobApplications : List JobApplication
  error : String
  currentPage : Nat
  statusFilter : Option Int
  showDeleteModal : Bool
  applicationToDelete : Option JobApplication
  isDeleting : Bool
deriving Repr

/-- Fixed page size of the table. -/
def pageSize : Nat := 5

/-- Filter derivation (`src/src/services/JobApplicationService.ts`, lines
221-223): keep a record when no status filter is selected (`''`, here
`none`) or its status equals the selected one. -/
def filteredApplications (statusFilter : Option Int)
    (jobApplications : List JobApplication) : List JobApplication :=
  jobApplications.filter fun app =>
    match statusFilter with
    | none => true
    | some s => app.status == s

/-- Page-count derivation: `Math.ceil(filtered.length / pageSize)`.  The
float division is exact up to `2^53`, so the ceiling is the integer
ceiling division, written here in its `Nat` form. -/
def totalPages (filtered : List JobApplication) : Nat :=
  (filtered.length + pageSize - 1) / pageSize

/-- Visible-slice derivation: `filtered.slice(startIndex, endIndex)` with
`startIndex = (currentPage - 1) * pageSize` and
`endIndex = startIndex + pageSize`. -/
def currentApplications (currentPage : Nat)
    (filtered : List JobApplication) : List JobApplication :=
  (filtered.drop ((currentPage - 1) * pageSize)).take pageSize

/-- Inline status change, mirroring `handleStatusChange` of
`JobApplicationTable` (lines 250-260): await `updateStatus`; on success
map over the local list replacing the `status` of the record with the
given id by the newly selected value (the server's returned record is
discarded); on failure only set the error banner. -/
def handleStatusChange (api : Api) (st : TableState) (id : Int)
    (newStatus : Int) : TableState :=
  match JobApplicationService.updateStatus api id newStatus with
  | .ok _ =>
    { st with
      jobApplications := st.jobApplications.map fun app =>
        if app.id == id then { app with status := newStatus } else app }
  | .error e =>
    { st with error := "Failed to update status: " ++ e }

/-- Delete confirmation, mirroring `confirmDelete` of
`JobApplicationTable` (lines 269-284): a no-op when nothing is staged;
otherwise await the delete call, and on success drop the records with the
staged id from the local list and close the modal and staged target,
while on failure only set the error banner; either way `isDeleting` ends
false (the `finally` block). -/
def confirmDelete (api : Api) (st : TableState) : TableState :=
  match st.applicationToDelete with
  | none => st
  | some target =>
    match api.deleteById target.id with
    | .ok _ =>
      { st with
        jobApplications := st.jobApplications.filter fun app => app.id != target.id,
        showDeleteModal := false,
        applicationToDelete := none,
        isDeleting := false }
    | .error e =>
      { st with
        error := "Failed to delete application: " ++ e,
        isDeleting := false }

/-- Updated-record merge, mirroring the `useEffect` on
`updatedApplication` in `JobApplicationTable` (lines 316-323): map over
the list replacing each record whose id equals the updated record's id by
the updated record. -/
def applyUpdatedApplication (updated : JobApplication)
    (jobApplications : List JobApplication) : List JobApplication :=
  jobApplications.map fun app =>
    if app.id == updated.id then updated else app

/-- Concrete record used to instantiate the theorems below. -/
def sampleRecord : JobApplication :=
  { id := 1, company := "Acme", position := "Engineer", status := 1,
    dateApplied := "2024-01-15T00:00:00.000Z",
    createdAt := "2024-01-15T10:00:00.000Z",
    updatedAt := "2024-01-15T10:00:00.000Z" }

/-- A second concrete record with a different id. -/
def sampleRecord2 : JobApplication :=
  { id := 2, company := "Globex", position := "Analyst", status := 5,
    dateApplied := "2024-02-01T00:00:00.000Z",
    createdAt := "2024-02-01T09:00:00.000Z",
    updatedAt := "2024-02-01T09:00:00.000Z" }

/-- A record whose id matches nothing in the sample list. -/
def absentRecord : JobApplication :=
  { sampleRecord with id := 99, company := "Initech" }

/-- Oracle on which every call succeeds: `getById` knows record 1,
`update` echoes the DTO back with server-side fields attached, and
`deleteById` resolves. -/
def api0 : Api :=
  { getById := fun i => if i == 1 then .ok sampleRecord
      else .error "HTTP 404: Server error",
    update := fun i dto => .ok
      { id := i, company := dto.company, position := dto.position,
        status := dto.status, dateApplied := dto.dateApplied,
        createdAt := sampleRecord.createdAt,
        updatedAt := "2024-03-01T12:00:00.000Z" },
    deleteById := fun _ => .ok () }

/-- Oracle on which every call fails with a normalized server error. -/
def apiFailing : Api :=
  { getById := fun _ => .error "HTTP 500: Server error",
    update := fun _ _ => .error "HTTP 500: Server error",
    deleteById := fun _ => .error "HTTP 500: Server error" }

/-- The record `api0.update` returns for `updateStatus 1 3`. -/
def resp0 : JobApplication :=
  { id := 1, company := "Acme", position := "Engineer", status := 3,
    dateApplied := "2024-01-15T00:00:00.000Z",
    createdAt := sampleRecord.createdAt,
    updatedAt := "2024-03-01T12:00:00.000Z" }

/-- Concrete table state: two records loaded, record 1 staged for
deletion with the confirmation modal open. -/
def st0 : TableState :=
  { jobApplications := [sampleRecord, sampleRecord2], error := "",
    currentPage := 1, statusFilter := none, showDeleteModal := true,
    applicationToDelete := some sampleRecord, isDeleting := true }

/-- A list of twelve records, for the concrete pagination instances. -/
def l12 : List JobApplication := List.replicate 12 sampleRecord

/-- A form violating all four validation rules at once: whitespace-only
company, empty position, status code 7, empty date. -/
def allInvalidForm : JobApplicationFormData :=
  { company := "  ", position := "", status := 7, dateApplied := none }

/-- A form whose `dateApplied` is 2022-10-15, submitted while the current
date is 2023-10-15: exactly one calendar year — and exactly 365 days —
before the current date. -/
def boundaryForm : JobApplicationFormData :=
  { company := "Acme", position := "Engineer", status := 1,
    dateApplied := some { year := 2022, month := 10, day := 15 } }

/-- The instant 2023-10-15T12:00:00Z: noon UTC. -/
def noonOct15 : Now :=
  { date := { year := 2023, month := 10, day := 15 }, timeOfDay := 43200000 }

/-- Concrete error map with errors on `company` and `status`. -/
def errors0 : FormErrors :=
  { company := some "Company name is required",
    status := some "Please select a valid status" }

/-- A string starting with a nonempty literal is not the empty string. -/
theorem string_append_ne_nil (a b : String) (c : Char) (cs : List Char)
    (ha : a.data = c :: cs) : a ++ b ≠ "" := by
  intro h
  have h2 := congrArg String.data h
  rw [String.data_append, ha] at h2
  simp at h2

/-- Strings whose first characters differ are different. -/
theorem ne_of_data_head (u v : String) (c d : Char) (hc : u.data.head? = some c)
    (hd : v.data.head? = some d) (hcd : c ≠ d) : u ≠ v := by
  intro h
  subst h
  rw [hc] at hd
  exact hcd (Option.some.inj hd)

/-- Appending on the right preserves the first character. -/
theorem head_of_append (a b : String) (c : Char) (h : a.data.head? = some c) :
    (a ++ b).data.head? = some c := by
  rw [String.data_append]
  cases ha : a.data with
  | nil => rw [ha] at h; simp at h
  | cons x xs =>
    rw [ha] at h
    simpa using h

/-- C1: the dateApplied rule is claimed to accept the inclusive one-year
boundary, but the code rejects it: at 2023-10-15T12:00:00Z, the input
2022-10-15 — exactly 365 days, and exactly one calendar year, before the
current date — is reported as too old, because the parsed input is
midnight UTC while `oneYearAgo` keeps the current time of day, so the
strict `<` fires on the boundary date at any time after midnight. -/
theorem dateApplied_one_year_boundary_rejected :
    daysFromCivil 2023 10 15 - daysFromCivil 2022 10 15 = 365 ∧
    (0 : Int) ≤ noonOct15.timeOfDay ∧ noonOct15.timeOfDay < msPerDay ∧
    (validateForm boundaryForm noonOct15).dateApplied
      = some "Date applied cannot be more than one year ago" := by
  refine ⟨by decide, by decide, by decide, by decide⟩

/-- C2: `updateStatus(id, status)` is a read-modify-write: when
`getById(id)` yields `cur`, the call is exactly `update(id, dto)` with
`dto` carrying `cur`'s company, position and dateApplied unchanged and
only `status` replaced, and its result is the result of that `update`
call; a failing `getById` is propagated unchanged. -/
theorem updateStatus_is_read_modify_write (api : Api) (id s : Int)
    (cur : JobApplication) (h : api.getById id = .ok cur) :
    JobApplicationService.updateStatus api id s =
      api.update id
        { company := cur.company, position := cur.position,
          status := s, dateApplied := cur.dateApplied } := by
  simp [JobApplicationService.updateStatus, h]

/-- C2 witness: on the concrete oracle `api0`, `updateStatus 1 3` equals
the `update` call built from the fetched record with only status
replaced. -/
theorem updateStatus_is_read_modify_write_witness :
    api0.getById 1 = .ok sampleRecord ∧
    JobApplicationService.updateStatus api0 1 3 =
      api0.update 1
        { company := sampleRecord.company, position := sampleRecord.position,
          status := 3, dateApplied := sampleRecord.dateApplied } :=
  ⟨rfl, updateStatus_is_read_modify_write api0 1 3 sampleRecord rfl⟩

/-- C3: after a successful inline status change, position by position the
local list keeps every record unchanged except the ones whose id matches,
which keep every field and get only `status` overwritten with the newly
selected value — for every server response `resp`, so nothing of the
response is merged. -/
theorem handleStatusChange_overwrites_only_status (api : Api)
    (st : TableState) (id s : Int) (resp : JobApplication)
    (h : JobApplicationService.updateStatus api id s = .ok resp) :
    ∀ i : Nat,
      (handleStatusChange api st id s).jobApplications[i]? =
        (st.jobApplications[i]?).map fun app =>
          if app.id = id then { app with status := s } else app := by
  intro i
  simp only [handleStatusChange, h, List.getElem?_map]
  cases st.jobApplications[i]? <;> simp

/-- C3 witness: on the concrete oracle and state, the first record (id 1)
ends with status 3 and all other fields as before the call. -/
theorem handleStatusChange_overwrites_only_status_witness :
    JobApplicationService.updateStatus api0 1 3 = .ok resp0 ∧
    (handleStatusChange api0 st0 1 3).jobApplications[0]? =
      some { sampleRecord with status := 3 } :=
  ⟨rfl,
    (handleStatusChange_overwrites_only_status api0 st0 1 3 resp0 rfl 0).trans
      (by rfl)⟩

/-- C4: one validation pass evaluates the four field rules independently
and reports every violated rule together: the company (resp. position)
error is present iff the trimmed value is empty or longer than 200
characters; the status error is present iff the value is not one of the
six enum codes; an empty date yields the required error; each of these
three entries depends only on its own field; and the all-invalid form
gets errors on all four fields from a single pass. -/
theorem validateForm_reports_all_violations (fd : JobApplicationFormData)
    (now : Now) :
    ((validateForm fd now).company.isSome ↔
      (jsTrim fd.company = "" ∨ (jsTrim fd.company).length > 200)) ∧
    ((validateForm fd now).position.isSome ↔
      (jsTrim fd.position = "" ∨ (jsTrim fd.position).length > 200)) ∧
    ((validateForm fd now).status.isSome ↔
      fd.status ∉ applicationStatusValues) ∧
    (fd.dateApplied = none → (validateForm fd now).dateApplied.isSome) ∧
    (∀ (fd' : JobApplicationFormData) (now' : Now), fd'.company = fd.company →
      (validateForm fd' now').company = (validateForm fd now).company) ∧
    (∀ (fd' : JobApplicationFormData) (now' : Now), fd'.position = fd.position →
      (validateForm fd' now').position = (validateForm fd now).position) ∧
    (∀ (fd' : JobApplicationFormData) (now' : Now), fd'.status = fd.status →
      (validateForm fd' now').status = (validateForm fd now).status) ∧
    ((validateForm allInvalidForm now).company.isSome ∧
      (validateForm allInvalidForm now).position.isSome ∧
      (validateForm allInvalidForm now).status.isSome ∧
      (validateForm allInvalidForm now).dateApplied.isSome) := by
  refine ⟨?_, ?_, ?_, ?_, ?_, ?_, ?_, rfl, rfl, rfl, rfl⟩
  · simp only [validateForm]
    split_ifs <;> simp_all
  · simp only [validateForm]
    split_ifs <;> simp_all
  · simp only [validateForm]
    split_ifs with h <;> simp_all [List.contains, List.elem_iff]
  · intro h
    simp [validateForm, h]
  · intro fd' now' h
    simp only [validateForm, h]
  · intro fd' now' h
    simp only [validateForm, h]
  · intro fd' now' h
    simp only [validateForm, h]

/-- C4 witness: company independence applied to two concrete forms with
the same company, plus the all-four-errors instance at a concrete
instant. -/
theorem validateForm_reports_all_violations_witness :
    ({ boundaryForm with company := "  " } : JobApplicationFormData).company
      = allInvalidForm.company ∧
    (validateForm { boundaryForm with company := "  " } noonOct15).company
      = (validateForm allInvalidForm noonOct15).company ∧
    (validateForm allInvalidForm noonOct15).company.isSome ∧
    (validateForm allInvalidForm noonOct15).position.isSome ∧
    (validateForm allInvalidForm noonOct15).status.isSome ∧
    (validateForm allInvalidForm noonOct15).dateApplied.isSome :=
  ⟨rfl,
    (validateForm_reports_all_violations allInvalidForm noonOct15).2.2.2.2.1
      { boundaryForm with company := "  " } noonOct15 rfl,
    (validateForm_reports_all_violations allInvalidForm noonOct15).2.2.2.2.2.2.2.1,
    (validateForm_reports_all_violations allInvalidForm noonOct15).2.2.2.2.2.2.2.2.1,
    (validateForm_reports_all_violations allInvalidForm noonOct15).2.2.2.2.2.2.2.2.2.1,
    (validateForm_reports_all_violations allInvalidForm noonOct15).2.2.2.2.2.2.2.2.2.2⟩

/-- C5: with a staged target, a failing delete call leaves the list, the
modal flag and the staged target unchanged and populates the error
banner; a successful delete call removes exactly the records with the
staged id (one record, when the id occurs once), keeps all others in
order, and closes the modal and the staged target. -/
theorem confirmDelete_atomic_on_list (api : Api) (st : TableState)
    (target : JobApplication)
    (hstage : st.applicationToDelete = some target) :
    (∀ e : String, api.deleteById target.id = .error e →
      (confirmDelete api st).jobApplications = st.jobApplications ∧
      (confirmDelete api st).error = "Failed to delete application: " ++ e ∧
      (confirmDelete api st).error ≠ "" ∧
      (confirmDelete api st).showDeleteModal = st.showDeleteModal ∧
      (confirmDelete api st).applicationToDelete = st.applicationToDelete) ∧
    (api.deleteById target.id = .ok () →
      (confirmDelete api st).jobApplications.Sublist st.jobApplications ∧
      (∀ a ∈ (confirmDelete api st).jobApplications, a.id ≠ target.id) ∧
      (∀ a ∈ st.jobApplications, a.id ≠ target.id →
        a ∈ (confirmDelete api st).jobApplications) ∧
      (st.jobApplications.countP (fun a => a.id == target.id) = 1 →
        (confirmDelete api st).jobApplications.length + 1 =
          st.jobApplications.length) ∧
      (confirmDelete api st).showDeleteModal = false ∧
      (confirmDelete api st).applicationToDelete = none) := by
  constructor
  · intro e he
    have h1 : (confirmDelete api st).jobApplications = st.jobApplications := by
      simp [confirmDelete, hstage, he]
    have h2 : (confirmDelete api st).error
        = "Failed to delete application: " ++ e := by
      simp [confirmDelete, hstage, he]
    have h3 : (confirmDelete api st).showDeleteModal = st.showDeleteModal := by
      simp [confirmDelete, hstage, he]
    have h4 : (confirmDelete api st).applicationToDelete
        = st.applicationToDelete := by
      simp [confirmDelete, hstage, he]
    refine ⟨h1, h2, ?_, h3, h4⟩
    rw [h2]
    exact string_append_ne_nil _ e 'F' _ rfl
  · intro hok
    have hjobs : (confirmDelete api st).jobApplications
        = st.jobApplications.filter fun app => app.id != target.id := by
      simp [confirmDelete, hstage, hok]
    have hmodal : (confirmDelete api st).showDeleteModal = false := by
      simp [confirmDelete, hstage, hok]
    have hstaged : (confirmDelete api st).applicationToDelete = none := by
      simp [confirmDelete, hstage, hok]
    rw [hjobs]
    refine ⟨List.filter_sublist _, ?_, ?_, ?_, hmodal, hstaged⟩
    · intro a ha
      simp only [List.mem_filter, bne_iff_ne] at ha
      exact ha.2
    · intro a ha hne
      simp only [List.mem_filter, bne_iff_ne]
      exact ⟨ha, hne⟩
    · intro hcount
      have hlen : (st.jobApplications.filter fun app => app.id != target.id).length
          = st.jobApplications.countP fun app => app.id != target.id := by
        simp [List.countP_eq_length_filter]
      have hsplit := List.length_eq_countP_add_countP
        (fun a : JobApplication => a.id == target.id) st.jobApplications
      have hpred : (fun a : JobApplication => decide ¬((a.id == target.id) = true))
          = fun a : JobApplication => a.id != target.id := by
        funext a
        cases h : (a.id == target.id) <;> simp [bne, h]
      rw [hpred] at hsplit
      omega

/-- C5 witness: on the concrete staged state, a failing delete leaves the
list intact with a populated error, and a successful delete closes the
confirmation state and shrinks the list by exactly one. -/
theorem confirmDelete_atomic_on_list_witness :
    st0.applicationToDelete = some sampleRecord ∧
    apiFailing.deleteById sampleRecord.id = .error "HTTP 500: Server error" ∧
    (confirmDelete apiFailing st0).jobApplications = st0.jobApplications ∧
    (confirmDelete apiFailing st0).error ≠ "" ∧
    api0.deleteById sampleRecord.id = .ok () ∧
    (confirmDelete api0 st0).showDeleteModal = false ∧
    (confirmDelete api0 st0).applicationToDelete = none ∧
    (confirmDelete api0 st0).jobApplications.length + 1
      = st0.jobApplications.length :=
  ⟨rfl, rfl,
    ((confirmDelete_atomic_on_list apiFailing st0 sampleRecord rfl).1 _ rfl).1,
    ((confirmDelete_atomic_on_list apiFailing st0 sampleRecord rfl).1 _ rfl).2.2.1,
    rfl,
    ((confirmDelete_atomic_on_list api0 st0 sampleRecord rfl).2 rfl).2.2.2.2.1,
    ((confirmDelete_atomic_on_list api0 st0 sampleRecord rfl).2 rfl).2.2.2.2.2,
    ((confirmDelete_atomic_on_list api0 st0 sampleRecord rfl).2 rfl).2.2.2.1
      (by decide)⟩

/-- C6: the derived page count is the ceiling of the filtered length over
the page size (the least page count whose pages cover the list, 0 for the
empty list), and the visible slice is the window from `(page-1)*pageSize`
to `page*pageSize`; with 12 records, page 1 shows the first five and page
3 the last two. -/
theorem pagination_ceil_and_slice (l : List JobApplication) (p : Nat)
    (hp : 1 ≤ p) :
    currentApplications p l = (l.take (p * pageSize)).drop ((p - 1) * pageSize) ∧
    l.length ≤ pageSize * totalPages l ∧
    (∀ m : Nat, l.length ≤ pageSize * m → totalPages l ≤ m) ∧
    (l.length = 12 →
      currentApplications 1 l = l.take 5 ∧ currentApplications 3 l = l.drop 10) ∧
    (l = [] → totalPages l = 0) := by
  refine ⟨?_, ?_, ?_, ?_, ?_⟩
  · have h5 : (p - 1) * pageSize + pageSize = p * pageSize := by
      simp [pageSize]; omega
    rw [currentApplications, List.take_drop, h5]
  · simp only [totalPages, pageSize]
    omega
  · intro m hm
    simp only [totalPages, pageSize] at *
    omega
  · intro h12
    constructor
    · simp [currentApplications, pageSize]
    · have hlen : (l.drop 10).length ≤ 5 := by simp [List.length_drop, h12]
      simp [currentApplications, pageSize, List.take_of_length_le hlen]
  · intro h
    subst h
    rfl

/-- C6 witness: the twelve-record instances, through the general
theorem at page 3 and page 1. -/
theorem pagination_ceil_and_slice_witness :
    1 ≤ 3 ∧ l12.length = 12 ∧
    currentApplications 3 l12 = (l12.take (3 * pageSize)).drop ((3 - 1) * pageSize) ∧
    currentApplications 1 l12 = l12.take 5 ∧
    currentApplications 3 l12 = l12.drop 10 :=
  ⟨by decide, by decide,
    (pagination_ceil_and_slice l12 3 (by decide)).1,
    ((pagination_ceil_and_slice l12 3 (by decide)).2.2.2.1 (by decide)).1,
    ((pagination_ceil_and_slice l12 3 (by decide)).2.2.2.1 (by decide)).2⟩

/-- C7: filtering by a status yields exactly the subsequence of records
with that status — it is a sublist of the original (order preserved), a
record is in it iff it is in the original with the selected status, and
its length is the number of matching records — and with no filter
selected the filtered list is the full list. -/
theorem filtering_exact_subsequence (s : Int) (l : List JobApplication)
    (a : JobApplication) :
    (filteredApplications (some s) l).Sublist l ∧
    (a ∈ filteredApplications (some s) l ↔ a ∈ l ∧ a.status = s) ∧
    (filteredApplications (some s) l).length
      = l.countP (fun r => r.status == s) ∧
    filteredApplications none l = l := by
  refine ⟨List.filter_sublist l, ?_, ?_, ?_⟩
  · simp [filteredApplications, List.mem_filter]
  · simp [filteredApplications, List.countP_eq_length_filter]
  · simp [filteredApplications]

/-- C8: a failing call surfaces exactly one of the three normalized error
kinds: a server response is rendered with its status code and the body
message, falling back to the generic string when the body carries none
(or an empty one); no response is the fixed network-error message; a
construction failure carries the underlying message — each kind is
distinguishable from the other two, and the single attempt's failure is
propagated to the caller unchanged, with no retry. -/
theorem apiClient_error_normalization {α : Type}
    (attempt : Except AxiosFailure α) (f : AxiosFailure)
    (h : attempt = .error f) :
    runServiceCall attempt = .error (normalizeError f) ∧
    (∀ s : Int, normalizeError (.response s none)
      = "HTTP " ++ toString s ++ ": Server error") ∧
    (∀ s : Int, normalizeError (.response s (some ""))
      = "HTTP " ++ toString s ++ ": Server error") ∧
    (∀ (s : Int) (m : String), m ≠ "" →
      normalizeError (.response s (some m))
        = "HTTP " ++ toString s ++ ": " ++ m) ∧
    normalizeError .request = "Network error: No response from server" ∧
    (∀ m : String, normalizeError (.setup m) = "Request error: " ++ m) ∧
    (∀ (s : Int) (bm : Option String),
      normalizeError (.response s bm) ≠ normalizeError .request) ∧
    (∀ (s : Int) (bm : Option String) (m : String),
      normalizeError (.response s bm) ≠ normalizeError (.setup m)) ∧
    (∀ m : String, normalizeError (.setup m) ≠ normalizeError .request) := by
  subst h
  refine ⟨rfl, ?_, ?_, ?_, rfl, fun m => rfl, ?_, ?_, ?_⟩
  · intro s
    show ("HTTP " ++ toString s ++ ": ") ++ "Server error" = _
    rw [String.append_assoc]
    rfl
  · intro s
    show ("HTTP " ++ toString s ++ ": ") ++ "Server error" = _
    rw [String.append_assoc]
    rfl
  · intro s m hm
    simp [normalizeError, hm]
  · intro s bm
    refine ne_of_data_head _ _ 'H' 'N' ?_ rfl (by decide)
    exact head_of_append _ _ 'H'
      (head_of_append _ _ 'H' (head_of_append _ _ 'H' rfl))
  · intro s bm m
    refine ne_of_data_head _ _ 'H' 'R' ?_ ?_ (by decide)
    · exact head_of_append _ _ 'H'
        (head_of_append _ _ 'H' (head_of_append _ _ 'H' rfl))
    · exact head_of_append _ _ 'R' rfl
  · intro m
    refine ne_of_data_head _ _ 'R' 'N' ?_ rfl (by decide)
    exact head_of_append _ _ 'R' rfl

/-- C8 witness: concrete instances of the three kinds and of the
propagation of a network failure. -/
theorem apiClient_error_normalization_witness :
    runServiceCall (Except.error AxiosFailure.request :
        Except AxiosFailure (List JobApplication))
      = .error (normalizeError .request) ∧
    normalizeError (.response 503 none)
      = "HTTP " ++ toString (503 : Int) ++ ": Server error" ∧
    ("boom" : String) ≠ "" ∧
    normalizeError (.response 500 (some "boom"))
      = "HTTP " ++ toString (500 : Int) ++ ": " ++ "boom" ∧
    normalizeError (.response 500 (some "boom")) ≠ normalizeError .request :=
  ⟨(apiClient_error_normalization
      (Except.error AxiosFailure.request :
        Except AxiosFailure (List JobApplication)) .request rfl).1,
    (apiClient_error_normalization
      (Except.error AxiosFailure.request :
        Except AxiosFailure (List JobApplication)) .request rfl).2.1 503,
    by decide,
    (apiClient_error_normalization
      (Except.error AxiosFailure.request :
        Except AxiosFailure (List JobApplication)) .request rfl).2.2.2.1
      500 "boom" (by decide),
    (apiClient_error_normalization
      (Except.error AxiosFailure.request :
        Except AxiosFailure (List JobApplication)) .request rfl).2.2.2.2.2.2.1
      500 (some "boom")⟩

/-- C9: merging an updated record whose id matches no element of the list
never changes the length, and leaves the list element-wise unchanged (in
particular it never inserts the record). -/
theorem replaceById_absent_id_noop (u : JobApplication)
    (l : List JobApplication) :
    (applyUpdatedApplication u l).length = l.length ∧
    ((∀ a ∈ l, a.id ≠ u.id) → applyUpdatedApplication u l = l) := by
  constructor
  · simp [applyUpdatedApplication]
  · intro h
    induction l with
    | nil => rfl
    | cons hd tl ih =>
      have hhd : ¬(hd.id = u.id) := by
        simpa using h hd (by simp)
      have htl := ih (fun a ha => h a (by simp [ha]))
      simp only [applyUpdatedApplication, List.map_cons] at htl ⊢
      simp only [beq_iff_eq] at htl ⊢
      simp [hhd, htl]

/-- C9 witness: merging a record with the unused id 99 into the sample
list is a no-op. -/
theorem replaceById_absent_id_noop_witness :
    (applyUpdatedApplication absentRecord st0.jobApplications).length
      = st0.jobApplications.length ∧
    applyUpdatedApplication absentRecord st0.jobApplications
      = st0.jobApplications :=
  ⟨(replaceById_absent_id_noop absentRecord st0.jobApplications).1,
    (replaceById_absent_id_noop absentRecord st0.jobApplications).2 (by decide)⟩

/-- C10: a change event on one input clears that field's error entry (and
at most that one: afterwards the entry is `none`, whether it was present
or not), leaves every other field's error entry and the general entry
unchanged, and leaves every other field's value unchanged. -/
theorem handleInputChange_clears_only_named_error
    (fd : JobApplicationFormData) (errors : FormErrors) (u : FieldUpdate) :
    (handleInputChange fd errors u).2.get u.field = none ∧
    (∀ f : FormField, f ≠ u.field →
      (handleInputChange fd errors u).2.get f = errors.get f) ∧
    (handleInputChange fd errors u).2.general = errors.general ∧
    (u.field ≠ .company → (handleInputChange fd errors u).1.company = fd.company) ∧
    (u.field ≠ .position → (handleInputChange fd errors u).1.position = fd.position) ∧
    (u.field ≠ .status → (handleInputChange fd errors u).1.status = fd.status) ∧
    (u.field ≠ .dateApplied →
      (handleInputChange fd errors u).1.dateApplied = fd.dateApplied) := by
  cases u <;>
    refine ⟨?_, fun f hf => ?_, ?_, fun hne => ?_, fun hne => ?_, fun hne => ?_,
      fun hne => ?_⟩ <;>
    first
    | (cases f <;>
        simp_all [handleInputChange, FieldUpdate.field, FormErrors.get,
          Option.not_isSome_iff_eq_none] <;>
        split <;> simp_all)
    | (simp_all [handleInputChange, FieldUpdate.field, FormErrors.get,
        Option.not_isSome_iff_eq_none] <;> split <;> simp_all)

/-- C10 witness: changing the company input on a concrete error map
clears the company error, keeps the status error, and keeps the other
form values. -/
theorem handleInputChange_clears_only_named_error_witness :
    (handleInputChange allInvalidForm errors0 (FieldUpdate.company "Acme")).2.get
      (FieldUpdate.company "Acme").field = none ∧
    FormField.status ≠ (FieldUpdate.company "Acme").field ∧
    (handleInputChange allInvalidForm errors0 (FieldUpdate.company "Acme")).2.get
      FormField.status = errors0.get FormField.status ∧
    (FieldUpdate.company "Acme").field ≠ FormField.position ∧
    (handleInputChange allInvalidForm errors0 (FieldUpdate.company "Acme")).1.position
      = allInvalidForm.position :=
  ⟨(handleInputChange_clears_only_named_error allInvalidForm errors0
      (FieldUpdate.company "Acme")).1,
    by decide,
    (handleInputChange_clears_only_named_error allInvalidForm errors0
      (FieldUpdate.company "Acme")).2.1 FormField.status (by decide),
    by decide,
    (handleInputChange_clears_only_named_error allInvalidForm errors0
      (FieldUpdate.company "Acme")).2.2.2.2.1 (by decide)⟩
